import Mathlib

/-!
Formal model of the package-entitlement and command-execution subsystem of the
Magic Notebook server.

The definitions below are a shallow embedding of the TypeScript sources:
  * `server/agents/fixed-integration.ts`  (`executeTrialCommand`, note formatting)
  * `server/agents/fixed-orchestrator.ts` (`TrialOrchestrator.generateTrial` and agents)
  * `server/routes.ts`                    (`POST /api/commands/execute`,
                                           `GET /api/user/package`)
  * `server/storage.ts`                   (`DatabaseStorage` UserPackage and
                                           CommandExecution operations)

Modelling conventions:
  * The relational store is reduced to the single user under consideration:
    at most one `UserPackage` row, the user's command-execution ledger, and
    the user's notes (`St`).
  * Agent internals (randomness, LLM calls, external APIs) are abstracted as
    environment-provided outcomes (`PipelineEnv`): each stage either yields a
    payload or fails with an error message, exactly as the `try`/`catch`
    blocks of the agents turn exceptions into `success: false` results with
    `data: null`.
  * `JSON.parse` is an external library call and is abstracted as an oracle
    `jsonParse : String -> Option (List (String × String))`; `none` models a
    parse exception (swallowed by the caller's `catch`).
  * JavaScript `Date` values are modelled at day granularity (`JsDate`);
    `setMonth(m+1)` semantics, including day overflow into the next month and
    leap years, are reproduced in `addOneMonthJS`.  Time-of-day is irrelevant
    to the verified properties.
  * Regex character classes are modelled over ASCII: `\s` as ASCII whitespace
    and `.`-excluded line terminators as LF/CR.  `[a-zA-Z0-9]` matches
    `Char.isAlphanum` exactly.
  * ISO timestamp strings that are only stored, never interpreted
    (`executedAt`, `signupTime`, ...), are threaded through the environment.
-/

namespace MagicNotebook

/-! ## JavaScript date model -/

/-- Calendar date at day granularity; `month` is 0-based as in JS `getMonth`. -/
structure JsDate where
  year : Int
  month : Nat
  day : Nat
deriving DecidableEq, Repr

/-- Gregorian leap-year rule, as implemented by JS `Date`. -/
def isLeapYear (y : Int) : Bool :=
  y % 4 = 0 && (y % 100 != 0 || y % 400 = 0)

/-- Number of days of 0-based month `m` of year `y`. -/
def daysInMonth (y : Int) (m : Nat) : Nat :=
  if m = 1 then (if isLeapYear y then 29 else 28)
  else if m = 3 || m = 5 || m = 8 || m = 10 then 30
  else 31

/-- JS `d.setMonth(d.getMonth() + 1)`: advance by one calendar month, with the
day-of-month overflowing into the following month when the target month is
shorter (e.g. Jan 31 becomes Mar 2/3). -/
def addOneMonthJS (d : JsDate) : JsDate :=
  let y1 : Int := if d.month + 1 ≥ 12 then d.year + 1 else d.year
  let m1 : Nat := if d.month + 1 ≥ 12 then 0 else d.month + 1
  if d.day ≤ daysInMonth y1 m1 then ⟨y1, m1, d.day⟩
  else
    let d2 := d.day - daysInMonth y1 m1
    if m1 + 1 ≥ 12 then ⟨y1 + 1, 0, d2⟩ else ⟨y1, m1 + 1, d2⟩

/-- Comparison `a <= b` on dates (JS compares the underlying instants). -/
def dateLe (a b : JsDate) : Bool :=
  a.year < b.year ||
    (a.year = b.year && (a.month < b.month ||
      (a.month = b.month && a.day ≤ b.day)))

/-! ## Data model

`UserPackage` mirrors `UserPackageResponse` from `server/storage.ts`
(`getUserPackage`): the subscription fields are optional, matching the
`!== undefined` checks the route performs on them.  For subscription rows
created by `createUserPackage` all three are set. -/

structure UserPackage where
  id : Int
  packageId : Int
  packageName : String
  purchasedAt : String
  trialsRemaining : Int
  isActive : Bool
  isSubscription : Bool
  renewalDate : Option JsDate
  trialLimitPerCycle : Option Int
  trialsUsedInCycle : Option Int
deriving DecidableEq, Repr

/-- Ledger row, from the `commandExecutions` table. -/
structure CommandExecution where
  userId : Int
  command : String
  serviceName : String
  status : String
  message : String
  executedAt : String
deriving DecidableEq, Repr

/-- Note row (only the fields `executeTrialCommand` writes). -/
structure Note where
  userId : Int
  title : String
  content : String
  color : String
  isPinned : Bool
deriving DecidableEq, Repr

/-- Persistent store restricted to one user: the at-most-one `UserPackage`
row, the append-only command ledger, and the notes. -/
structure St where
  userPackage : Option UserPackage
  ledger : List CommandExecution
  notes : List Note
deriving DecidableEq, Repr

/-! ## Storage operations (`server/storage.ts`) -/

/-- `DatabaseStorage.getUserPackage`: the row must satisfy `isActive = true`. -/
def getUserPackage (st : St) : Option UserPackage :=
  match st.userPackage with
  | some p => if p.isActive then some p else none
  | none => none

/-- `DatabaseStorage.executeCommand`: append one ledger row, returning it. -/
def executeCommandOp (e : CommandExecution) (st : St) : CommandExecution × St :=
  (e, { st with ledger := st.ledger ++ [e] })

/-- `DatabaseStorage.updateUserPackageTrials`: set `trialsRemaining`. -/
def updateUserPackageTrials (n : Int) (st : St) : St :=
  { st with userPackage := st.userPackage.map (fun p => { p with trialsRemaining := n }) }

/-- `DatabaseStorage.incrementTrialsUsedInCycle`: increment the cycle counter,
but only for subscription rows (`userPackage.trialsUsedInCycle || 0` + 1). -/
def incrementTrialsUsedInCycle (st : St) : St :=
  { st with userPackage := st.userPackage.map (fun p =>
      if p.isSubscription then
        { p with trialsUsedInCycle := some ((p.trialsUsedInCycle.getD 0) + 1) }
      else p) }

/-- `DatabaseStorage.resetTrialsUsedInCycle`: zero the cycle counter and set
`renewalDate` to one month after the CURRENT time (`new Date()` plus
`setMonth(+1)`), regardless of the stored renewal date. -/
def resetTrialsUsedInCycle (now : JsDate) (st : St) : St :=
  { st with userPackage := st.userPackage.map (fun p =>
      { p with trialsUsedInCycle := some 0, renewalDate := some (addOneMonthJS now) }) }

/-- `DatabaseStorage.createNote`: append a note row. -/
def createNoteOp (n : Note) (st : St) : St :=
  { st with notes := st.notes ++ [n] }

/-! ## Command parsing (`fixed-integration.ts` lines 14-52)

The command regex is `/^(!)?generateTrial\s+([a-zA-Z0-9]+)(\s+(.+))?$/`.
With greedy matching this accepts exactly: an optional `!`, the literal
`generateTrial`, a nonempty whitespace run, a nonempty maximal alphanumeric
service name, and optionally a nonempty whitespace run followed by a nonempty
parameter string free of line terminators (`.` does not match LF/CR and `$`
is end-of-input).  `parseTrialCommand` returns the captured service name and
optional parameter string. -/

/-- ASCII model of the JS `\s` character class. -/
def isSpaceCh (c : Char) : Bool :=
  c = ' ' || c = '\t' || c = '\n' || c = '\r' || c = '\x0b' || c = '\x0c'

/-- Character class `[a-zA-Z0-9]`. -/
def isAlnumCh (c : Char) : Bool := c.isAlphanum

/-- Line terminators excluded by the JS `.` pattern. -/
def isLineTermCh (c : Char) : Bool := c = '\n' || c = '\r'

/-- Drop an exact literal from the front of a character list. -/
def dropLiteral : List Char → List Char → Option (List Char)
  | [], cs => some cs
  | _ :: _, [] => none
  | p :: ps, c :: cs => if c = p then dropLiteral ps cs else none

/-- Strip the optional leading `!` sigil (the `(!)?` group). -/
def stripSigil (cs : List Char) : List Char :=
  if cs.head? = some '!' then cs.tail else cs

/-- Full command regex match, returning `(serviceName, paramsString?)`.

When the tail after the service name is nonempty it must start with
whitespace; the parameter capture is then the part after the maximal
whitespace run when that part is nonempty (and free of line terminators,
which `.` does not match).  When the tail is whitespace only, backtracking
applies: `\s+` gives back its final character so that `(.+)` can capture it,
which succeeds exactly when the tail has at least two characters and its
last character is not a line terminator — the capture is that single
whitespace character (e.g. `"generateTrial netflix  "` matches with
parameter string `" "`). -/
def parseTrialCommand (cmd : String) : Option (String × Option String) :=
  let cs1 := stripSigil cmd.data
  match dropLiteral "generateTrial".data cs1 with
  | none => none
  | some r1 =>
    let w := r1.takeWhile isSpaceCh
    let r2 := r1.dropWhile isSpaceCh
    if w.isEmpty then none
    else
      let svc := r2.takeWhile isAlnumCh
      let r3 := r2.dropWhile isAlnumCh
      if svc.isEmpty then none
      else
        match r3 with
        | [] => some (String.mk svc, none)
        | _ :: _ =>
          let w2 := r3.takeWhile isSpaceCh
          let p := r3.dropWhile isSpaceCh
          if w2.isEmpty then none
          else if p.isEmpty then
            match w2.getLast? with
            | some c =>
              if w2.length ≥ 2 && !isLineTermCh c then
                some (String.mk svc, some (String.mk [c]))
              else none
            | none => none
          else if p.any isLineTermCh then none
          else some (String.mk svc, some (String.mk p))

/-- Route-level test `command.match(/^(!)?generateTrial\s+/)` from
`routes.ts` line 681: optional `!`, the literal, then one whitespace char. -/
def startsWithTrialCmd (cmd : String) : Bool :=
  let cs1 := stripSigil cmd.data
  match dropLiteral "generateTrial".data cs1 with
  | none => false
  | some r1 =>
    match r1 with
    | c :: _ => isSpaceCh c
    | [] => false

/-- JS `String.prototype.trim` over the modelled whitespace class. -/
def jsTrim (s : String) : String :=
  String.mk ((s.data.dropWhile isSpaceCh).reverse.dropWhile isSpaceCh).reverse

/-- JS `String.prototype.startsWith`, on the character-list view. -/
def strStartsWith (s p : String) : Bool := p.data.isPrefixOf s.data

/-- JS `String.prototype.endsWith`, on the character-list view. -/
def strEndsWith (s p : String) : Bool := p.data.reverse.isPrefixOf s.data.reverse

/-- Accumulate one whitespace-split token of the `key=value` branch: keep it
only when both the part before and after the first `=` are nonempty
(`if (key && value)` in the source). -/
def kvStep (acc : List (String × String)) (tok : String) :
    List (String × String) :=
  match tok.splitOn "=" with
  | k :: v :: _ => if k ≠ "" && v ≠ "" then acc ++ [(k, v)] else acc
  | _ => acc

/-- Parameter-block interpretation (`fixed-integration.ts` lines 33-52):
a `{...}`-wrapped block goes through `JSON.parse` (exceptions swallowed,
leaving the empty map); otherwise whitespace-split `key=value` pairs. -/
def parseParameters (jsonParse : String → Option (List (String × String)))
    (pOpt : Option String) : List (String × String) :=
  match pOpt with
  | none => []
  | some p =>
    let t := jsTrim p
    if strStartsWith t "\x7b" && strEndsWith t "\x7d" then
      (jsonParse p).getD []
    else
      (p.splitOn " ").foldl kvStep []

/-- Malformed parameter block, in the sense of the lenient-parse policy: a
brace-wrapped block that `JSON.parse` rejects, or a `key=value` block none of
whose tokens carries a nonempty key and value around an `=`. -/
def malformedParamBlock (jsonParse : String → Option (List (String × String)))
    (p : String) : Prop :=
  if strStartsWith (jsTrim p) "\x7b" && strEndsWith (jsTrim p) "\x7d" then
    jsonParse p = none
  else
    ∀ tok ∈ p.splitOn " ", ∀ k v rest, tok.splitOn "=" = k :: v :: rest →
      k = "" ∨ v = ""

/-! ## Trial generation pipeline (`fixed-orchestrator.ts`)

Stage payload shapes follow the data each agent returns.  Agent internals
(randomness, LLM calls) are abstracted: each stage's outcome is supplied by
the environment as `Except String payload`, where `.error m` models the
agent's `catch` path (which always yields `success: false`, `data: null`,
and a stage-specific message prefix around the exception message `m`). -/

/-- ProfileAgent payload (the deterministic offline shape). -/
structure ProfileData where
  firstName : String
  lastName : String
  username : String
  age : Int
  interests : List String
  occupation : String
deriving DecidableEq, Repr

/-- EmailAgent payload. -/
structure EmailData where
  email : String
  accessKey : String
  expiresIn : String
deriving DecidableEq, Repr

/-- PhoneNumberAgent payload. -/
structure PhoneData where
  phoneNumber : String
  verificationCode : String
  expiresIn : String
deriving DecidableEq, Repr

/-- VirtualCardAgent payload (limit in whole currency units). -/
structure CardData where
  cardNumber : String
  expiryMonth : Int
  expiryYear : Int
  cvv : String
  limit : Int
  currency : String
deriving DecidableEq, Repr

/-- Account summary nested in the ProxyAgent signup payload. -/
structure AccountDetails where
  username : String
  email : String
  hasPaymentMethod : Bool
  membershipLevel : String
deriving DecidableEq, Repr

/-- ProxyAgent signup payload. -/
structure SignupData where
  service : String
  signupTime : String
  accountDetails : AccountDetails
  trialEndDate : String
deriving DecidableEq, Repr

/-- Masked projection of the virtual card put in the aggregate result. -/
structure PaymentMethodView where
  typ : String
  last4 : String
  expiryMonth : Int
  expiryYear : Int
deriving DecidableEq, Repr

/-- Aggregate success payload: the spread of the signup data plus the
profile, email, phone payloads and the masked card projection. -/
structure AggregateData where
  service : String
  signupTime : String
  accountDetails : AccountDetails
  trialEndDate : String
  profile : ProfileData
  email : EmailData
  phone : PhoneData
  paymentMethod : PaymentMethodView
deriving DecidableEq, Repr

/-- Tagged union of the possible `data` payloads of a `TrialResult`. -/
inductive TrialData where
  | profileD (p : ProfileData)
  | emailD (e : EmailData)
  | phoneD (p : PhoneData)
  | cardD (c : CardData)
  | signupD (s : SignupData)
  | aggregateD (a : AggregateData)
deriving DecidableEq, Repr

/-- `TrialType` enum from `fixed-orchestrator.ts`. -/
inductive TrialType where
  | phoneNumber
  | email
  | virtualCard
  | profile
  | subscription
deriving DecidableEq, Repr

/-- `TrialResult` shape from `fixed-orchestrator.ts`. -/
structure TrialResult where
  success : Bool
  trialType : TrialType
  data : Option TrialData
  message : String
deriving DecidableEq, Repr

/-- Pipeline stages, in their fixed execution order. -/
inductive StageName where
  | profile
  | email
  | phone
  | card
  | signup
deriving DecidableEq, Repr

/-- Environment-provided stage outcomes and clock strings. -/
structure PipelineEnv where
  profileO : Except String ProfileData
  emailO : Except String EmailData
  phoneO : Except String PhoneData
  cardO : Except String CardData
  signupO : Except String Unit
  nowIso : String
  trialEndIso : String

/-- All five stage outcomes succeed. -/
def pipelineOk (p : PipelineEnv) : Bool :=
  p.profileO.isOk && p.emailO.isOk && p.phoneO.isOk && p.cardO.isOk && p.signupO.isOk

/-- `TrialOrchestrator.generateTrial`: run the five agents strictly in order,
returning the first failure unchanged, or the combined aggregate on success.
The second component is the trace of stages that were actually executed
(the observable mock call counts). -/
def generateTrial (p : PipelineEnv) (serviceName : String) :
    TrialResult × List StageName :=
  match p.profileO with
  | .error m =>
    (⟨false, .profile, none, "Failed to generate profile: " ++ m⟩, [.profile])
  | .ok prof =>
    match p.emailO with
    | .error m =>
      (⟨false, .email, none, "Failed to generate email: " ++ m⟩, [.profile, .email])
    | .ok em =>
      match p.phoneO with
      | .error m =>
        (⟨false, .phoneNumber, none, "Failed to generate phone number: " ++ m⟩,
         [.profile, .email, .phone])
      | .ok ph =>
        match p.cardO with
        | .error m =>
          (⟨false, .virtualCard, none, "Failed to generate virtual card: " ++ m⟩,
           [.profile, .email, .phone, .card])
        | .ok cd =>
          match p.signupO with
          | .error m =>
            (⟨false, .subscription, none, "Failed to sign up for trial: " ++ m⟩,
             [.profile, .email, .phone, .card, .signup])
          | .ok _ =>
            let signupData : SignupData :=
              { service := serviceName
                signupTime := p.nowIso
                accountDetails :=
                  { username := prof.username
                    email := em.email
                    hasPaymentMethod := true
                    membershipLevel := "trial" }
                trialEndDate := p.trialEndIso }
            (⟨true, .subscription,
              some (.aggregateD
                { service := signupData.service
                  signupTime := signupData.signupTime
                  accountDetails := signupData.accountDetails
                  trialEndDate := signupData.trialEndDate
                  profile := prof
                  email := em
                  phone := ph
                  paymentMethod :=
                    { typ := "Virtual Card"
                      last4 := cd.cardNumber.takeRight 4
                      expiryMonth := cd.expiryMonth
                      expiryYear := cd.expiryYear } }),
              "Successfully generated trial for " ++ serviceName⟩,
             [.profile, .email, .phone, .card, .signup])

/-! ## Fixed message strings -/

/-- Shared guidance fragment naming the valid command format. -/
def fmtStr : String := "!generateTrial [serviceName]"

/-- Message of `fixed-integration.ts` on a full regex mismatch. -/
def msgInvalidFormat : String := "Invalid command format. Use: " ++ fmtStr

/-- Message of `fixed-integration.ts` when no active package exists. -/
def msgNeedPackage : String := "You need an active package to generate trials"

/-- Message of `fixed-integration.ts` when `trialsRemaining === 0`. -/
def msgNoTrials : String := "You have no trials remaining. Please upgrade your package."

/-- Message of `routes.ts` when the command lacks the generateTrial start. -/
def msgUnknownCommand : String := "Unknown command. Available commands: " ++ fmtStr

/-- Route 403 body when the user has no active package. -/
def msgPurchasePackage : String := "You need to purchase a package to execute commands"

/-- Route 403 body when a non-subscription package is exhausted. -/
def msgUsedAllTrials : String :=
  "You\x27ve used all your available trials. Please purchase a new package."

/-- Route 403 body when the subscription cycle quota is reached. -/
def msgCycleLimit (l : Int) : String :=
  "You\x27ve reached your limit of " ++ toString l ++ " trials for this billing cycle."

/-! ## Note formatting (`formatTrialDetailsAsMarkdown`) -/

/-- JS truthiness fallback `s || dflt` for strings. -/
def strOr (s dflt : String) : String := if s = "" then dflt else s

/-- Markdown rendering of a successful aggregate, following
`formatTrialDetailsAsMarkdown` in `fixed-integration.ts`; `nowLocale` stands
for `new Date().toLocaleDateString()`. -/
def formatTrialDetailsAsMarkdown (nowLocale serviceName : String)
    (d : AggregateData) : String :=
  "# " ++ serviceName ++ " Trial - Generated " ++ nowLocale ++ "\n\n"
  ++ "## Account Details\n\n"
  ++ "- **Username:** " ++ strOr d.accountDetails.username "N/A" ++ "\n"
  ++ "- **Email:** " ++ strOr d.accountDetails.email "N/A" ++ "\n"
  ++ "- **Membership Level:** " ++ strOr d.accountDetails.membershipLevel "Trial" ++ "\n"
  ++ "\n## Profile Information\n\n"
  ++ "- **Name:** " ++ d.profile.firstName ++ " " ++ d.profile.lastName ++ "\n"
  ++ (if d.profile.age ≠ 0 then "- **Age:** " ++ toString d.profile.age ++ "\n" else "")
  ++ (if d.profile.occupation ≠ "" then
        "- **Occupation:** " ++ d.profile.occupation ++ "\n" else "")
  ++ "- **Interests:** " ++ String.intercalate ", " d.profile.interests ++ "\n"
  ++ "\n## Contact Information\n\n"
  ++ "- **Email Address:** " ++ d.email.email ++ "\n"
  ++ "- **Email Access Key:** " ++ d.email.accessKey ++ "\n"
  ++ "- **Email Expires:** " ++ d.email.expiresIn ++ " from generation time\n"
  ++ "- **Phone Number:** " ++ d.phone.phoneNumber ++ "\n"
  ++ "- **Verification Code:** " ++ d.phone.verificationCode ++ "\n"
  ++ "- **Phone Expires:** " ++ d.phone.expiresIn ++ " from generation time\n"
  ++ "\n## Payment Information\n\n"
  ++ "- **Payment Type:** " ++ d.paymentMethod.typ ++ "\n"
  ++ "- **Card Last 4:** " ++ d.paymentMethod.last4 ++ "\n"
  ++ "- **Expiry:** " ++ toString d.paymentMethod.expiryMonth ++ "/"
  ++ toString d.paymentMethod.expiryYear ++ "\n"
  ++ "\n## Trial Status\n\n"
  ++ "- **Signup Time:** " ++ strOr d.signupTime nowLocale ++ "\n"
  ++ (if d.trialEndDate ≠ "" then
        "- **Trial End Date:** " ++ d.trialEndDate ++ "\n" else "")
  ++ "\n## Instructions\n\n"
  ++ "1. Use the login details above to access your " ++ serviceName
  ++ " trial account.\n"
  ++ "2. If prompted for verification, use the provided phone number and verification code.\n"
  ++ "3. Your trial is set to expire on the trial end date. Make sure to cancel before then to avoid charges.\n"
  ++ "4. For security, the payment method details are partially masked.\n"

/-- Note content for a trial result payload (only the aggregate shape occurs
on the success path). -/
def formatNote (nowLocale serviceName : String) : Option TrialData → String
  | some (.aggregateD a) => formatTrialDetailsAsMarkdown nowLocale serviceName a
  | _ => ""

/-! ## Command execution (`fixed-integration.ts` `executeTrialCommand`) -/

/-- Request-scoped environment: pipeline stage outcomes, the `JSON.parse`
oracle, the clock, and the external subscription-status check. -/
structure Env where
  pipeline : PipelineEnv
  jsonParse : String → Option (List (String × String))
  nowDate : JsDate
  nowIsoStr : String
  nowLocaleStr : String
  subActive : Bool

/-- Value returned by `executeTrialCommand`: the ledger row it created, plus
the `trialData` field attached on the success path (`null` otherwise, and
absent on the early-return paths, which we render as `none` as well). -/
structure ExecOut where
  exec : CommandExecution
  trialData : Option TrialData
deriving DecidableEq, Repr

/-- Continuation of `executeTrialCommand` after a successful command parse:
entitlement check against the store, pipeline dispatch, ledgering, optional
settlement of `trialsRemaining`, and optional note creation, in the exact
order of the source. -/
def execTrialParsed (env : Env) (userId : Int) (command serviceName : String)
    (st : St) : ExecOut × St :=
  match getUserPackage st with
  | none =>
    let r := executeCommandOp
      ⟨userId, command, serviceName, "error", msgNeedPackage, env.nowIsoStr⟩ st
    (⟨r.1, none⟩, r.2)
  | some up =>
    if up.trialsRemaining = 0 then
      let r := executeCommandOp
        ⟨userId, command, serviceName, "error", msgNoTrials, env.nowIsoStr⟩ st
      (⟨r.1, none⟩, r.2)
    else
      let isUnlimited := up.trialsRemaining = -1
      let tr := (generateTrial env.pipeline serviceName).1
      let r := executeCommandOp
        ⟨userId, command, serviceName,
         if tr.success then "success" else "error", tr.message, env.nowIsoStr⟩ st
      let st2 := if tr.success && !isUnlimited then
          updateUserPackageTrials (up.trialsRemaining - 1) r.2
        else r.2
      let st3 := if tr.success && tr.data.isSome then
          createNoteOp
            ⟨userId, serviceName ++ " Trial Details",
             formatNote env.nowLocaleStr serviceName tr.data, "green", true⟩ st2
        else st2
      (⟨r.1, if tr.success then tr.data else none⟩, st3)

/-- `executeTrialCommand` from `fixed-integration.ts`: parse the command
(ledgering a fixed-format error on mismatch), interpret the parameter block
leniently, then continue with `execTrialParsed`. -/
def executeTrialCommand (env : Env) (userId : Int) (command : String)
    (st : St) : ExecOut × St :=
  match parseTrialCommand command with
  | none =>
    let r := executeCommandOp
      ⟨userId, command, "unknown", "error", msgInvalidFormat, env.nowIsoStr⟩ st
    (⟨r.1, none⟩, r.2)
  | some (serviceName, pOpt) =>
    let _params := parseParameters env.jsonParse pOpt
    execTrialParsed env userId command serviceName st

/-! ## Route handlers (`routes.ts`) -/

/-- HTTP-level response of the command-execution route. -/
structure RouteResp where
  httpStatus : Nat
  message : Option String
  out : Option ExecOut
deriving DecidableEq, Repr

/-- Entitlement guard of `POST /api/commands/execute` (lines 659-675):
subscription packages are blocked when both cycle fields are present and the
usage has reached the limit; other packages are blocked when
`trialsRemaining !== -1 && trialsRemaining <= 0`. -/
def routeGuardRejects (up : UserPackage) : Option String :=
  if up.isSubscription then
    match up.trialsUsedInCycle, up.trialLimitPerCycle with
    | some u, some l => if u ≥ l then some (msgCycleLimit l) else none
    | _, _ => none
  else
    if up.trialsRemaining ≠ -1 && up.trialsRemaining ≤ 0 then
      some msgUsedAllTrials
    else none

/-- Dispatch part of `POST /api/commands/execute` (lines 677-709), reached
once the guard passed: trial commands go through `executeTrialCommand`, and
on a `success` status the route settles usage against the `userPackage`
record it read BEFORE dispatch; other commands are ledgered as unknown. -/
def postDispatch (env : Env) (userId : Int) (command : String)
    (up : UserPackage) (st : St) : RouteResp × St :=
  if startsWithTrialCmd command then
    let r := executeTrialCommand env userId command st
    let st2 :=
      if r.1.exec.status = "success" then
        if up.isSubscription then incrementTrialsUsedInCycle r.2
        else if up.trialsRemaining ≠ -1 then
          updateUserPackageTrials (up.trialsRemaining - 1) r.2
        else r.2
      else r.2
    (⟨200, none, some r.1⟩, st2)
  else
    let r := executeCommandOp
      ⟨userId, command, "unknown", "error", msgUnknownCommand, env.nowIsoStr⟩ st
    (⟨400, none, some ⟨r.1, none⟩⟩, r.2)

/-- `POST /api/commands/execute` (lines 645-720): active-package check, the
entitlement guard, then dispatch.  The guard rejections respond 403 and do
not touch the store. -/
def postCommandsExecute (env : Env) (userId : Int) (command : String)
    (st : St) : RouteResp × St :=
  match getUserPackage st with
  | none => (⟨403, some msgPurchasePackage, none⟩, st)
  | some up =>
    match routeGuardRejects up with
    | some m => (⟨403, some m, none⟩, st)
    | none => postDispatch env userId command up st

/-- Response shape of `GET /api/user/package`. -/
structure PkgResp where
  httpStatus : Nat
  pkg : Option UserPackage
  message : Option String
deriving DecidableEq, Repr

/-- `GET /api/user/package` (lines 132-176): for subscription packages with a
renewal date, an expired external billing status deactivates the row (402);
otherwise, when `now >= renewalDate`, the cycle usage is reset as a side
effect of the read and the updated row is returned. -/
def getUserPackageRoute (env : Env) (st : St) : PkgResp × St :=
  match getUserPackage st with
  | none => (⟨404, none, some "No active package found"⟩, st)
  | some up =>
    if up.isSubscription && up.renewalDate.isSome then
      if !env.subActive then
        let st2 : St :=
          { st with userPackage := st.userPackage.map (fun p =>
              { p with isActive := false }) }
        (⟨402, none, some "Subscription has expired"⟩, st2)
      else
        match up.renewalDate with
        | some rd =>
          if dateLe rd env.nowDate then
            let st2 := resetTrialsUsedInCycle env.nowDate st
            (⟨200, getUserPackage st2, none⟩, st2)
          else (⟨200, some up, none⟩, st)
        | none => (⟨200, some up, none⟩, st)
    else (⟨200, some up, none⟩, st)

/-! ## Sequences of command executions -/

/-- Whether a route response reports a settled successful execution. -/
def respSuccess (r : RouteResp) : Bool :=
  match r.out with
  | some o => o.exec.status = "success"
  | none => false

/-- Run one command, accumulating the success count. -/
def runStep (userId : Int) (s : St × Nat) (step : Env × String) : St × Nat :=
  let r := postCommandsExecute step.1 userId step.2 s.1
  (r.2, s.2 + (if respSuccess r.1 then 1 else 0))

/-- Run a list of commands through the execution route, counting successes. -/
def runCommands (userId : Int) (steps : List (Env × String)) (s : St × Nat) :
    St × Nat :=
  steps.foldl (runStep userId) s

/-! ## Concrete fixtures (used as witnesses and counterexamples) -/

/-- Fixture: the deterministic offline profile shape. -/
def profFx : ProfileData :=
  ⟨"John", "Doe", "johndoe42", 30, ["technology", "music", "travel"],
   "Software Developer"⟩

/-- Fixture: a disposable email payload. -/
def emailFx : EmailData := ⟨"user42@tempmail.org", "k3yabc", "10m"⟩

/-- Fixture: a virtual phone payload. -/
def phoneFx : PhoneData := ⟨"+15550000000", "1234", "24h"⟩

/-- Fixture: a generated virtual card. -/
def cardFx : CardData := ⟨"4111222233334444", 5, 2026, "123", 1, "USD"⟩

/-- Fixture: a different card sharing last four digits and expiry with
`cardFx`. -/
def cardFx2 : CardData := ⟨"4999888877774444", 5, 2026, "999", 1, "USD"⟩

/-- Fixture: all five stages succeed. -/
def pipeOkFx : PipelineEnv :=
  ⟨.ok profFx, .ok emailFx, .ok phoneFx, .ok cardFx, .ok (),
   "2024-03-10T00:00:00.000Z", "2024-04-09T00:00:00.000Z"⟩

/-- Fixture: request environment with an all-success pipeline, a rejecting
JSON oracle, clock 2024-03-10, and an active external billing status. -/
def envFx : Env :=
  { pipeline := pipeOkFx
    jsonParse := fun _ => none
    nowDate := ⟨2024, 2, 10⟩
    nowIsoStr := "2024-03-10T00:00:00.000Z"
    nowLocaleStr := "3/10/2024"
    subActive := true }

/-- Fixture: a non-subscription package with three trials remaining. -/
def upBasicFx : UserPackage :=
  ⟨1, 1, "Basic", "2024-01-01T00:00:00.000Z", 3, true, false, none, none, none⟩

/-- Fixture: a subscription package at its cycle limit, whose renewal date
(2024-02-01) is already past the fixture clock (2024-03-10). -/
def upSubFx : UserPackage :=
  ⟨2, 2, "Monthly Basic", "2024-01-01T00:00:00.000Z", -1, true, true,
   some ⟨2024, 1, 1⟩, some 15, some 15⟩

/-- Fixture: store with no package row. -/
def stEmptyFx : St := ⟨none, [], []⟩

/-- Fixture: store holding the non-subscription package. -/
def stBasicFx : St := ⟨some upBasicFx, [], []⟩

/-- Fixture: store holding the exhausted subscription package. -/
def stSubFx : St := ⟨some upSubFx, [], []⟩

/-- Fixture: a non-subscription package with a negative, non-sentinel
remaining-trials counter. -/
def upNegFx : UserPackage := { upBasicFx with trialsRemaining := -2 }

/-- Fixture: store holding the negative-counter package. -/
def stNegFx : St := ⟨some upNegFx, [], []⟩

/-- Fixture: four trial commands against the three-trial package. -/
def steps4Fx : List (Env × String) :=
  [(envFx, "generateTrial netflix"), (envFx, "generateTrial hulu"),
   (envFx, "generateTrial spotify"), (envFx, "generateTrial prime")]

/-! ## Framing lemmas for the storage operations -/

@[simp]
theorem exec_executeCommandOp (e : CommandExecution) (st : St) :
    (executeCommandOp e st).1 = e := rfl

@[simp]
theorem ledger_executeCommandOp (e : CommandExecution) (st : St) :
    ((executeCommandOp e st).2).ledger = st.ledger ++ [e] := rfl

@[simp]
theorem userPackage_executeCommandOp (e : CommandExecution) (st : St) :
    ((executeCommandOp e st).2).userPackage = st.userPackage := rfl

@[simp]
theorem ledger_updateUserPackageTrials (n : Int) (st : St) :
    (updateUserPackageTrials n st).ledger = st.ledger := rfl

@[simp]
theorem ledger_incrementTrialsUsedInCycle (st : St) :
    (incrementTrialsUsedInCycle st).ledger = st.ledger := rfl

@[simp]
theorem ledger_createNoteOp (n : Note) (st : St) :
    (createNoteOp n st).ledger = st.ledger := rfl

@[simp]
theorem userPackage_createNoteOp (n : Note) (st : St) :
    (createNoteOp n st).userPackage = st.userPackage := rfl

@[simp]
theorem userPackage_updateUserPackageTrials (n : Int) (st : St) :
    (updateUserPackageTrials n st).userPackage
      = st.userPackage.map (fun p => { p with trialsRemaining := n }) := rfl

@[simp]
theorem userPackage_incrementTrialsUsedInCycle (st : St) :
    (incrementTrialsUsedInCycle st).userPackage
      = st.userPackage.map (fun p =>
          if p.isSubscription then
            { p with trialsUsedInCycle := some ((p.trialsUsedInCycle.getD 0) + 1) }
          else p) := rfl

theorem getUserPackage_some {st : St} {up : UserPackage}
    (h : st.userPackage = some up) (ha : up.isActive = true) :
    getUserPackage st = some up := by
  simp [getUserPackage, h, ha]

/-! ## Parsing lemmas -/

theorem takeWhile_append_all {α : Type} (p : α → Bool) :
    ∀ (l1 l2 : List α), (∀ a ∈ l1, p a = true) →
      (l1 ++ l2).takeWhile p = l1 ++ l2.takeWhile p := by
  intro l1
  induction l1 with
  | nil => intro l2 _; simp
  | cons a l ih =>
    intro l2 h
    have ha : p a = true := h a (by simp)
    simp [List.takeWhile_cons, ha]
    exact ih l2 (fun b hb => h b (by simp [hb]))

theorem dropWhile_append_all {α : Type} (p : α → Bool) :
    ∀ (l1 l2 : List α), (∀ a ∈ l1, p a = true) →
      (l1 ++ l2).dropWhile p = l2.dropWhile p := by
  intro l1
  induction l1 with
  | nil => intro l2 _; simp
  | cons a l ih =>
    intro l2 h
    have ha : p a = true := h a (by simp)
    simp [List.dropWhile_cons, ha]
    exact ih l2 (fun b hb => h b (by simp [hb]))

theorem dropLiteral_append : ∀ (l r : List Char), dropLiteral l (l ++ r) = some r := by
  intro l
  induction l with
  | nil => intro r; rfl
  | cons c cs ih => intro r; simp [dropLiteral, ih]

/-- Alphanumeric characters are not in the whitespace class. -/
theorem alnum_not_space {c : Char} (h : isAlnumCh c = true) :
    isSpaceCh c = false := by
  by_contra hc
  have hc' : isSpaceCh c = true := by
    cases hx : isSpaceCh c
    · exact absurd hx hc
    · rfl
  have h6 : c = ' ' ∨ c = '\t' ∨ c = '\n' ∨ c = '\r' ∨ c = '\x0b' ∨ c = '\x0c' := by
    unfold isSpaceCh at hc'
    simp only [Bool.or_eq_true, decide_eq_true_eq] at hc'
    tauto
  rcases h6 with h1 | h1 | h1 | h1 | h1 | h1 <;> subst h1 <;>
    exact absurd h (by decide)

/-- Alphanumeric characters are not line terminators. -/
theorem alnum_not_lineterm {c : Char} (h : isAlnumCh c = true) :
    isLineTermCh c = false := by
  by_contra hc
  have hc' : isLineTermCh c = true := by
    cases hx : isLineTermCh c
    · exact absurd hx hc
    · rfl
  have h2 : c = '\n' ∨ c = '\r' := by
    unfold isLineTermCh at hc'
    simp only [Bool.or_eq_true, decide_eq_true_eq] at hc'
    tauto
  rcases h2 with h1 | h1 <;> subst h1 <;> exact absurd h (by decide)

/-- Canonical commands with an alphanumeric service name and a trailing
parameter block (nonempty, not starting with whitespace, free of line
terminators) match the full command regex, capturing the service name and
the parameter string. -/
theorem parseTrialCommand_canonical (svc pstr : String)
    (hsvc1 : svc ≠ "") (hsvc2 : ∀ c ∈ svc.data, isAlnumCh c = true)
    (hp1 : pstr ≠ "")
    (hp2 : ∀ c, pstr.data.head? = some c → isSpaceCh c = false)
    (hp3 : ∀ c ∈ pstr.data, isLineTermCh c = false) :
    parseTrialCommand ("generateTrial" ++ " " ++ svc ++ " " ++ pstr)
      = some (svc, some pstr) := by
  have hdata : ("generateTrial" ++ " " ++ svc ++ " " ++ pstr).data
      = "generateTrial".data ++ (' ' :: (svc.data ++ (' ' :: pstr.data))) := by
    simp [String.data_append]
  have hsvcne : svc.data ≠ [] := fun hnil => hsvc1 (by
    cases svc with
    | mk l => simp at hnil; simp [hnil])
  have hpne : pstr.data ≠ [] := fun hnil => hp1 (by
    cases pstr with
    | mk l => simp at hnil; simp [hnil])
  have hsigil : stripSigil ("generateTrial".data ++ (' ' :: (svc.data ++ (' ' :: pstr.data))))
      = "generateTrial".data ++ (' ' :: (svc.data ++ (' ' :: pstr.data))) := by
    unfold stripSigil
    simp
  obtain ⟨c0, svcrest, hsvccons⟩ : ∃ c0 rest, svc.data = c0 :: rest := by
    cases hsd : svc.data with
    | nil => exact absurd hsd hsvcne
    | cons a l => exact ⟨a, l, rfl⟩
  obtain ⟨d0, prest, hpcons⟩ : ∃ d0 rest, pstr.data = d0 :: rest := by
    cases hpd : pstr.data with
    | nil => exact absurd hpd hpne
    | cons a l => exact ⟨a, l, rfl⟩
  have hc0 : isAlnumCh c0 = true := hsvc2 c0 (by rw [hsvccons]; simp)
  have hd0 : isSpaceCh d0 = false := hp2 d0 (by rw [hpcons]; rfl)
  have hspT : isSpaceCh ' ' = true := by decide
  have hanF : isAlnumCh ' ' = false := by decide
  have htake1 : (' ' :: (svc.data ++ (' ' :: pstr.data))).takeWhile isSpaceCh
      = [' '] := by
    rw [hsvccons]
    simp [List.takeWhile_cons, hspT, alnum_not_space hc0]
  have hdrop1 : (' ' :: (svc.data ++ (' ' :: pstr.data))).dropWhile isSpaceCh
      = svc.data ++ (' ' :: pstr.data) := by
    rw [hsvccons]
    simp [List.dropWhile_cons, hspT, alnum_not_space hc0]
  have htake2 : (svc.data ++ (' ' :: pstr.data)).takeWhile isAlnumCh = svc.data := by
    rw [takeWhile_append_all isAlnumCh svc.data _ hsvc2]
    simp [List.takeWhile_cons, hanF]
  have hdrop2 : (svc.data ++ (' ' :: pstr.data)).dropWhile isAlnumCh
      = ' ' :: pstr.data := by
    rw [dropWhile_append_all isAlnumCh svc.data _ hsvc2]
    simp [List.dropWhile_cons, hanF]
  have hsvcempty : svc.data.isEmpty = false := by
    rw [hsvccons]; rfl
  have htake3 : (' ' :: pstr.data).takeWhile isSpaceCh
      = ' ' :: pstr.data.takeWhile isSpaceCh := by
    simp [List.takeWhile_cons, hspT]
  have hdrop3 : (' ' :: pstr.data).dropWhile isSpaceCh = pstr.data := by
    rw [hpcons]
    simp [List.dropWhile_cons, hspT, hd0]
  have hpempty : pstr.data.isEmpty = false := by
    rw [hpcons]; rfl
  have hany : pstr.data.any isLineTermCh = false := by
    rw [List.any_eq_false]
    intro x hx
    simp [hp3 x hx]
  unfold parseTrialCommand
  rw [hdata]
  simp only [hsigil, dropLiteral_append, htake1, hdrop1, List.isEmpty_cons,
    Bool.false_eq_true, if_false, htake2, hdrop2, hsvcempty, htake3, hdrop3,
    hpempty, hany]

/-- Tokens none of which contributes a key=value pair fold to the empty map. -/
theorem kvFold_nil :
    ∀ (toks : List String) (acc : List (String × String)),
      (∀ tok ∈ toks, ∀ k v rest, tok.splitOn "=" = k :: v :: rest →
        k = "" ∨ v = "") →
      toks.foldl kvStep acc = acc := by
  intro toks
  induction toks with
  | nil => intro acc _; rfl
  | cons t ts ih =>
    intro acc h
    have hstep : kvStep acc t = acc := by
      unfold kvStep
      cases hsp : t.splitOn "=" with
      | nil => rfl
      | cons k rest =>
        cases rest with
        | nil => rfl
        | cons v rest2 =>
          have := h t (by simp) k v rest2 hsp
          rcases this with h1 | h1 <;> simp [h1]
    simp only [List.foldl_cons, hstep]
    exact ih acc (fun tok htok => h tok (by simp [htok]))

/-- Malformed parameter blocks degrade to the empty parameter map. -/
theorem parseParameters_malformed
    (jsonParse : String → Option (List (String × String))) (p : String)
    (h : malformedParamBlock jsonParse p) :
    parseParameters jsonParse (some p) = [] := by
  unfold malformedParamBlock at h
  by_cases hb : (strStartsWith (jsTrim p) "\x7b" && strEndsWith (jsTrim p) "\x7d") = true
  · rw [if_pos hb] at h
    simp only [parseParameters]
    rw [if_pos hb, h]
    rfl
  · rw [if_neg hb] at h
    simp only [parseParameters]
    rw [if_neg hb]
    exact kvFold_nil _ [] h

/-! ## Pipeline lemmas -/

theorem generateTrial_success (p : PipelineEnv) (svc : String) :
    ((generateTrial p svc).1).success = pipelineOk p := by
  unfold generateTrial pipelineOk
  cases p.profileO <;> cases p.emailO <;> cases p.phoneO <;>
    cases p.cardO <;> cases p.signupO <;> simp [Except.isOk, Except.toBool]

/-! ## Characterization of `executeTrialCommand` -/

theorem executeTrialCommand_ledger (env : Env) (uid : Int) (cmd : String)
    (st : St) :
    ((executeTrialCommand env uid cmd st).2).ledger
      = st.ledger ++ [((executeTrialCommand env uid cmd st).1).exec] := by
  unfold executeTrialCommand
  cases hp : parseTrialCommand cmd with
  | none => simp
  | some v =>
    obtain ⟨svc, po⟩ := v
    unfold execTrialParsed
    cases hg : getUserPackage st with
    | none => simp
    | some up =>
      by_cases h0 : up.trialsRemaining = 0
      · simp [h0]
      · simp only [h0, if_false, reduceIte]
        split <;> split <;> simp

/-- Package-row effect of `executeTrialCommand`: the row is decremented by
exactly one iff the recorded status is `success` and the row is not the
unlimited sentinel; otherwise it is untouched. -/
theorem executeTrialCommand_package (env : Env) (uid : Int) (cmd : String)
    {st : St} {up : UserPackage}
    (h : st.userPackage = some up) (ha : up.isActive = true) :
    ((executeTrialCommand env uid cmd st).2).userPackage
      = (if ((executeTrialCommand env uid cmd st).1).exec.status = "success"
            ∧ up.trialsRemaining ≠ -1
         then some { up with trialsRemaining := up.trialsRemaining - 1 }
         else some up) := by
  unfold executeTrialCommand
  cases hp : parseTrialCommand cmd with
  | none =>
    simp [h]
  | some v =>
    obtain ⟨svc, po⟩ := v
    unfold execTrialParsed
    rw [getUserPackage_some h ha]
    by_cases h0 : up.trialsRemaining = 0
    · simp only [h0, reduceIte]
      simp [h]
    · simp only [h0, if_false, reduceIte]
      by_cases hs : ((generateTrial env.pipeline svc).1).success = true
      · by_cases hu : up.trialsRemaining = -1
        · simp only [hs, hu, reduceIte]
          split <;> simp [h, hu]
        · simp only [hs, hu, reduceIte]
          split <;> simp [h, hu]
      · simp only [Bool.not_eq_true] at hs
        simp [hs, h]

/-- Ledger row produced by `executeTrialCommand` on a full parse failure. -/
theorem executeTrialCommand_parseFail (env : Env) (uid : Int) (cmd : String)
    (st : St) (hp : parseTrialCommand cmd = none) :
    (executeTrialCommand env uid cmd st).1
      = ⟨⟨uid, cmd, "unknown", "error", msgInvalidFormat, env.nowIsoStr⟩, none⟩ := by
  unfold executeTrialCommand
  simp [hp]

/-- Ledger row produced by `executeTrialCommand` when the command parses and
the stored package authorizes it: the pipeline decides the status. -/
theorem executeTrialCommand_exec_parsed (env : Env) (uid : Int)
    (cmd svc : String) (po : Option String) {st : St} {up : UserPackage}
    (h : st.userPackage = some up) (ha : up.isActive = true)
    (h0 : up.trialsRemaining ≠ 0)
    (hp : parseTrialCommand cmd = some (svc, po)) :
    ((executeTrialCommand env uid cmd st).1).exec
      = ⟨uid, cmd, svc,
         if pipelineOk env.pipeline then "success" else "error",
         ((generateTrial env.pipeline svc).1).message, env.nowIsoStr⟩ := by
  unfold executeTrialCommand
  simp only [hp]
  unfold execTrialParsed
  rw [getUserPackage_some h ha]
  simp only [h0, if_false, reduceIte]
  rw [← generateTrial_success env.pipeline svc]
  split <;> rfl

/-! ## Characterization of the execution route -/

theorem post_noPackage (env : Env) (uid : Int) (cmd : String) {st : St}
    (h : getUserPackage st = none) :
    postCommandsExecute env uid cmd st
      = (⟨403, some msgPurchasePackage, none⟩, st) := by
  unfold postCommandsExecute
  simp [h]

theorem post_guardReject (env : Env) (uid : Int) (cmd : String) {st : St}
    {up : UserPackage} {m : String} (h : getUserPackage st = some up)
    (hr : routeGuardRejects up = some m) :
    postCommandsExecute env uid cmd st = (⟨403, some m, none⟩, st) := by
  unfold postCommandsExecute
  simp [h, hr]

theorem post_dispatches (env : Env) (uid : Int) (cmd : String) {st : St}
    {up : UserPackage} (h : getUserPackage st = some up)
    (hr : routeGuardRejects up = none) :
    postCommandsExecute env uid cmd st = postDispatch env uid cmd up st := by
  unfold postCommandsExecute
  simp [h, hr]

/-- The dispatch path always responds 200 or 400 with an execution object,
and appends exactly that object's ledger row. -/
theorem postDispatch_ledger (env : Env) (uid : Int) (cmd : String)
    (up : UserPackage) (st : St) :
    ∃ o, ((postDispatch env uid cmd up st).1).out = some o
      ∧ ((postDispatch env uid cmd up st).1).httpStatus ≠ 403
      ∧ ((postDispatch env uid cmd up st).2).ledger = st.ledger ++ [o.exec] := by
  unfold postDispatch
  by_cases hs : startsWithTrialCmd cmd
  · refine ⟨(executeTrialCommand env uid cmd st).1, ?_, ?_, ?_⟩
    · simp [hs]
    · simp [hs]
    · simp only [hs, reduceIte]
      split
      · split
        · simp [executeTrialCommand_ledger]
        · split <;> simp [executeTrialCommand_ledger]
      · simp [executeTrialCommand_ledger]
  · simp [hs]

/-- Package-row effect of the dispatch path for non-subscription packages:
decrement by exactly one on a settled success, untouched otherwise. -/
theorem postDispatch_package_nonsub (env : Env) (uid : Int) (cmd : String)
    {st : St} {up : UserPackage}
    (h : st.userPackage = some up) (ha : up.isActive = true)
    (hsub : up.isSubscription = false) :
    ((postDispatch env uid cmd up st).2).userPackage
      = (if respSuccess (postDispatch env uid cmd up st).1
            ∧ up.trialsRemaining ≠ -1
         then some { up with trialsRemaining := up.trialsRemaining - 1 }
         else some up) := by
  unfold postDispatch
  by_cases hs : startsWithTrialCmd cmd
  · simp only [hs, reduceIte]
    by_cases hsucc : ((executeTrialCommand env uid cmd st).1).exec.status = "success"
    · by_cases hu : up.trialsRemaining = -1
      · simp [respSuccess, hsucc, hsub, hu,
          executeTrialCommand_package env uid cmd h ha]
      · simp [respSuccess, hsucc, hsub, hu,
          executeTrialCommand_package env uid cmd h ha]
    · simp [respSuccess, hsucc, executeTrialCommand_package env uid cmd h ha]
  · simp [hs, respSuccess, h, msgUnknownCommand]

/-- Package-row effect of the dispatch path for subscription packages: on a
settled success the cycle counter is incremented by exactly one (and the
integration layer independently decrements a finite `trialsRemaining`);
otherwise the row is untouched. -/
theorem postDispatch_package_sub (env : Env) (uid : Int) (cmd : String)
    {st : St} {up : UserPackage} {u : Int}
    (h : st.userPackage = some up) (ha : up.isActive = true)
    (hsub : up.isSubscription = true)
    (hu : up.trialsUsedInCycle = some u) :
    ((postDispatch env uid cmd up st).2).userPackage
      = (if respSuccess (postDispatch env uid cmd up st).1
         then some { up with
            trialsRemaining := if up.trialsRemaining ≠ -1
              then up.trialsRemaining - 1 else up.trialsRemaining,
            trialsUsedInCycle := some (u + 1) }
         else some up) := by
  unfold postDispatch
  by_cases hs : startsWithTrialCmd cmd
  · simp only [hs, reduceIte]
    by_cases hsucc : ((executeTrialCommand env uid cmd st).1).exec.status = "success"
    · by_cases hru : up.trialsRemaining = -1
      · simp [respSuccess, hsucc, hsub, hru, incrementTrialsUsedInCycle,
          executeTrialCommand_package env uid cmd h ha, hu]
      · simp [respSuccess, hsucc, hsub, hru, incrementTrialsUsedInCycle,
          executeTrialCommand_package env uid cmd h ha, hu]
    · simp [respSuccess, hsucc, executeTrialCommand_package env uid cmd h ha]
  · simp [hs, respSuccess, h, msgUnknownCommand]

/-- Frame property of the dispatch path: the renewal date of the package row
is never changed, and the cycle counter is either untouched or incremented by
exactly one — the dispatch path performs no cycle rollover. -/
theorem postDispatch_package_frame (env : Env) (uid : Int) (cmd : String)
    {st : St} {up : UserPackage}
    (h : st.userPackage = some up) (ha : up.isActive = true) :
    ∃ q, ((postDispatch env uid cmd up st).2).userPackage = some q ∧
      q.renewalDate = up.renewalDate ∧
      (q.trialsUsedInCycle = up.trialsUsedInCycle ∨
       q.trialsUsedInCycle = some (up.trialsUsedInCycle.getD 0 + 1)) := by
  unfold postDispatch
  by_cases hs : startsWithTrialCmd cmd
  · simp only [hs, reduceIte]
    have hpkg := executeTrialCommand_package env uid cmd h ha
    by_cases hsucc : ((executeTrialCommand env uid cmd st).1).exec.status = "success"
    · by_cases hur : up.trialsRemaining = -1
      · rw [if_neg (by tauto)] at hpkg
        by_cases hbsub : up.isSubscription = true
        · simp only [hsucc, reduceIte, hbsub, userPackage_incrementTrialsUsedInCycle,
            hpkg, Option.map_some]
          refine ⟨_, rfl, ?_, ?_⟩ <;> simp [hbsub]
        · simp only [hsucc, reduceIte, hbsub, hur, ne_eq, not_true_eq_false,
            Bool.false_eq_true, if_false]
          exact ⟨up, hpkg, rfl, Or.inl rfl⟩
      · rw [if_pos ⟨hsucc, hur⟩] at hpkg
        by_cases hbsub : up.isSubscription = true
        · simp only [hsucc, reduceIte, hbsub, userPackage_incrementTrialsUsedInCycle,
            hpkg, Option.map_some]
          refine ⟨_, rfl, ?_, ?_⟩ <;> simp [hbsub]
        · simp only [hsucc, reduceIte, hbsub, hur, ne_eq, not_false_eq_true,
            Bool.false_eq_true, if_true, if_false,
            userPackage_updateUserPackageTrials, hpkg, Option.map_some]
          exact ⟨_, rfl, rfl, Or.inl rfl⟩
    · rw [if_neg (by tauto)] at hpkg
      simp only [hsucc, reduceIte, Bool.false_eq_true, if_false]
      exact ⟨up, hpkg, rfl, Or.inl rfl⟩
  · simp only [hs, Bool.false_eq_true, if_false]
    exact ⟨up, by simp [h], rfl, Or.inl rfl⟩

/-- Read-path rollover of `GET /api/user/package`: when the subscription is
externally active and the renewal date has passed, the handler resets the
cycle usage and advances the renewal date before responding. -/
theorem getRoute_rollover (env : Env) {st : St} {p : UserPackage} {rd : JsDate}
    (h : st.userPackage = some p) (ha : p.isActive = true)
    (hsub : p.isSubscription = true) (hrd : p.renewalDate = some rd)
    (hact : env.subActive = true) (hdue : dateLe rd env.nowDate = true) :
    ((getUserPackageRoute env st).2).userPackage
      = some { p with trialsUsedInCycle := some 0,
                      renewalDate := some (addOneMonthJS env.nowDate) } ∧
    (getUserPackageRoute env st).1.httpStatus = 200 := by
  unfold getUserPackageRoute
  rw [getUserPackage_some h ha]
  simp [hsub, hrd, hact, hdue, resetTrialsUsedInCycle, h]

/-! ## Guard computation lemmas -/

theorem routeGuard_nonsub_pass {up : UserPackage}
    (hsub : up.isSubscription = false) (h1 : 0 < up.trialsRemaining) :
    routeGuardRejects up = none := by
  unfold routeGuardRejects
  simp [hsub]
  omega

theorem routeGuard_nonsub_reject {up : UserPackage}
    (hsub : up.isSubscription = false) (h1 : up.trialsRemaining ≠ -1)
    (h2 : up.trialsRemaining ≤ 0) :
    routeGuardRejects up = some msgUsedAllTrials := by
  unfold routeGuardRejects
  simp [hsub, h1, h2]

theorem routeGuard_sub_pass {up : UserPackage} {u l : Int}
    (hsub : up.isSubscription = true) (hu : up.trialsUsedInCycle = some u)
    (hl : up.trialLimitPerCycle = some l) (hlt : u < l) :
    routeGuardRejects up = none := by
  unfold routeGuardRejects
  simp [hsub, hu, hl]
  omega

theorem routeGuard_sub_reject {up : UserPackage} {u l : Int}
    (hsub : up.isSubscription = true) (hu : up.trialsUsedInCycle = some u)
    (hl : up.trialLimitPerCycle = some l) (hge : l ≤ u) :
    routeGuardRejects up = some (msgCycleLimit l) := by
  unfold routeGuardRejects
  simp [hsub, hu, hl]
  omega

/-! ## Fold invariants over command sequences -/

/-- Invariant of repeated command execution against a non-subscription
package: the success count never exceeds the initial grant and the remaining
trials are exactly the grant minus the successes. -/
theorem runCommands_nonsub (uid : Int) (up : UserPackage) (V : Int)
    (ha : up.isActive = true) (hsub : up.isSubscription = false) :
    ∀ (steps : List (Env × String)) (st : St) (n : Nat),
      st.userPackage = some { up with trialsRemaining := V - (n : Int) } →
      (n : Int) ≤ V →
      ∃ (st' : St) (N : Nat), runCommands uid steps (st, n) = (st', N) ∧
        n ≤ N ∧ (N : Int) ≤ V ∧
        st'.userPackage = some { up with trialsRemaining := V - (N : Int) } := by
  intro steps
  induction steps with
  | nil =>
    intro st n h hn
    exact ⟨st, n, rfl, le_refl n, hn, h⟩
  | cons step rest ih =>
    intro st n h hn
    obtain ⟨env, cmd⟩ := step
    have hp : ({ up with trialsRemaining := V - (n : Int) } : UserPackage).isActive = true := ha
    have hps : ({ up with trialsRemaining := V - (n : Int) } : UserPackage).isSubscription = false := hsub
    have hg : getUserPackage st = some { up with trialsRemaining := V - (n : Int) } :=
      getUserPackage_some h hp
    by_cases hz : V - (n : Int) ≤ 0
    · -- exhausted: the guard rejects and nothing changes
      have hz0 : V - (n : Int) = 0 := by omega
      have hrej : routeGuardRejects { up with trialsRemaining := V - (n : Int) }
          = some msgUsedAllTrials :=
        routeGuard_nonsub_reject hps (by simp [hz0]) (by simp [hz0])
      have hpost := post_guardReject env uid cmd hg hrej
      have hstep : runStep uid (st, n) (env, cmd) = (st, n) := by
        simp [runStep, hpost, respSuccess]
      simpa [runCommands, hstep] using ih st n h hn
    · -- credits remain: the guard passes and the dispatch may settle
      have hpass : routeGuardRejects { up with trialsRemaining := V - (n : Int) } = none :=
        routeGuard_nonsub_pass hps (by show 0 < V - (n : Int); omega)
      have hpost := post_dispatches env uid cmd hg hpass
      have hpkg := postDispatch_package_nonsub env uid cmd h hp hps
      by_cases hsucc : respSuccess (postDispatch env uid cmd
          { up with trialsRemaining := V - (n : Int) } st).1
      · have hne : ({ up with trialsRemaining := V - (n : Int) } : UserPackage).trialsRemaining ≠ -1 := by
          simp
          omega
        rw [if_pos ⟨hsucc, hne⟩] at hpkg
        have hstep : runStep uid (st, n) (env, cmd)
            = ((postDispatch env uid cmd { up with trialsRemaining := V - (n : Int) } st).2, n + 1) := by
          simp [runStep, hpost, hsucc]
        have h' : ((postDispatch env uid cmd
            { up with trialsRemaining := V - (n : Int) } st).2).userPackage
            = some { up with trialsRemaining := V - ((n + 1 : Nat) : Int) } := by
          rw [hpkg]
          congr 1
          push_cast
          ring_nf
        have := ih _ (n + 1) h' (by push_cast; omega)
        obtain ⟨st', N, hrun, hnN, hNV, hpkg'⟩ := this
        exact ⟨st', N, by simpa [runCommands, hstep] using hrun, by omega, hNV, hpkg'⟩
      · rw [if_neg (by tauto)] at hpkg
        have hstep : runStep uid (st, n) (env, cmd)
            = ((postDispatch env uid cmd { up with trialsRemaining := V - (n : Int) } st).2, n) := by
          simp [runStep, hpost, hsucc]
        have h' : ((postDispatch env uid cmd
            { up with trialsRemaining := V - (n : Int) } st).2).userPackage
            = some { up with trialsRemaining := V - (n : Int) } := hpkg
        have := ih _ n h' hn
        obtain ⟨st', N, hrun, hnN, hNV, hpkg'⟩ := this
        exact ⟨st', N, by simpa [runCommands, hstep] using hrun, hnN, hNV, hpkg'⟩

/-- Invariant of repeated command execution against a subscription package:
the cycle usage counter never exceeds the per-cycle limit. -/
theorem runCommands_sub (uid : Int) (base : UserPackage) (l : Int)
    (ha : base.isActive = true) (hsub : base.isSubscription = true)
    (hl : base.trialLimitPerCycle = some l) :
    ∀ (steps : List (Env × String)) (st : St) (n : Nat) (u tr : Int),
      st.userPackage
        = some { base with trialsUsedInCycle := some u, trialsRemaining := tr } →
      u ≤ l →
      ∃ (st' : St) (N : Nat) (u' tr' : Int),
        runCommands uid steps (st, n) = (st', N) ∧
        st'.userPackage
          = some { base with trialsUsedInCycle := some u', trialsRemaining := tr' } ∧
        u' ≤ l := by
  intro steps
  induction steps with
  | nil =>
    intro st n u tr h hu
    exact ⟨st, n, u, tr, rfl, h, hu⟩
  | cons step rest ih =>
    intro st n u tr h hu
    obtain ⟨env, cmd⟩ := step
    set p : UserPackage :=
      { base with trialsUsedInCycle := some u, trialsRemaining := tr } with hpdef
    have hpa : p.isActive = true := ha
    have hps : p.isSubscription = true := hsub
    have hpu : p.trialsUsedInCycle = some u := rfl
    have hpl : p.trialLimitPerCycle = some l := hl
    have hg : getUserPackage st = some p := getUserPackage_some h hpa
    by_cases hge : l ≤ u
    · -- cycle limit reached: guard rejects, nothing changes
      have hrej : routeGuardRejects p = some (msgCycleLimit l) :=
        routeGuard_sub_reject hps hpu hpl hge
      have hpost := post_guardReject env uid cmd hg hrej
      have hstep : runStep uid (st, n) (env, cmd) = (st, n) := by
        simp [runStep, hpost, respSuccess]
      simpa [runCommands, hstep] using ih st n u tr h hu
    · -- quota remains: dispatch, settled success increments by one
      have hpass : routeGuardRejects p = none :=
        routeGuard_sub_pass hps hpu hpl (by omega)
      have hpost := post_dispatches env uid cmd hg hpass
      have hpkg := postDispatch_package_sub env uid cmd h hpa hps hpu
      by_cases hsucc : respSuccess (postDispatch env uid cmd p st).1
      · rw [if_pos hsucc] at hpkg
        have hstep : runStep uid (st, n) (env, cmd)
            = ((postDispatch env uid cmd p st).2, n + 1) := by
          simp [runStep, hpost, hsucc]
        have h' : ((postDispatch env uid cmd p st).2).userPackage
            = some { base with
                       trialsUsedInCycle := some (u + 1),
                       trialsRemaining :=
                         (if p.trialsRemaining ≠ -1 then p.trialsRemaining - 1
                          else p.trialsRemaining) } := hpkg
        have := ih _ (n + 1) (u + 1) _ h' (by omega)
        obtain ⟨st', N, u', tr', hrun, hpkg', hle⟩ := this
        exact ⟨st', N, u', tr', by simpa [runCommands, hstep] using hrun, hpkg', hle⟩
      · rw [if_neg hsucc] at hpkg
        have hstep : runStep uid (st, n) (env, cmd)
            = ((postDispatch env uid cmd p st).2, n) := by
          simp [runStep, hpost, hsucc]
        have := ih _ n u tr hpkg hu
        obtain ⟨st', N, u', tr', hrun, hpkg', hle⟩ := this
        exact ⟨st', N, u', tr', by simpa [runCommands, hstep] using hrun, hpkg', hle⟩

/-! ## Claim theorems -/

/-- C1 counterexample: a call to the command-execution entry point from a
user with no active package is rejected with 403 and produces ZERO ledger
rows, not exactly one. -/
theorem C1_counterexample :
    ((postCommandsExecute envFx 1 "generateTrial netflix" stEmptyFx).2).ledger.length = 0 ∧
    (postCommandsExecute envFx 1 "generateTrial netflix" stEmptyFx).1.httpStatus = 403 :=
  ⟨rfl, rfl⟩

/-- C1 (amended): a call to the command-execution entry point produces
exactly one new ledger row whenever the route's authorization guard passes
(parse failure, unknown command, pipeline failure or success), and produces
no ledger row on an authorization rejection (403: no package, no credits,
or cycle exhausted). -/
theorem C1_amended_ledger (env : Env) (uid : Int) (cmd : String) (st : St) :
    ((postCommandsExecute env uid cmd st).1.httpStatus = 403 →
      ((postCommandsExecute env uid cmd st).2).ledger = st.ledger) ∧
    ((postCommandsExecute env uid cmd st).1.httpStatus ≠ 403 →
      ∃ e, ((postCommandsExecute env uid cmd st).2).ledger = st.ledger ++ [e]) := by
  cases hg : getUserPackage st with
  | none =>
    rw [post_noPackage env uid cmd hg]
    exact ⟨fun _ => rfl, fun hne => absurd rfl hne⟩
  | some up =>
    cases hr : routeGuardRejects up with
    | some m =>
      rw [post_guardReject env uid cmd hg hr]
      exact ⟨fun _ => rfl, fun hne => absurd rfl hne⟩
    | none =>
      rw [post_dispatches env uid cmd hg hr]
      obtain ⟨o, _, hne, hl⟩ := postDispatch_ledger env uid cmd up st
      exact ⟨fun h403 => absurd h403 hne, fun _ => ⟨o.exec, hl⟩⟩

/-- C1 witness: a ledgered outcome at a concrete input. -/
theorem C1_amended_ledger_witness :
    ∃ e, ((postCommandsExecute envFx 1 "doStuff" stBasicFx).2).ledger
      = stBasicFx.ledger ++ [e] :=
  (C1_amended_ledger envFx 1 "doStuff" stBasicFx).2 (by decide)

/-- C2: for an active non-subscription package with initial grant `V ≥ 0`
(the catalog grants are non-negative when not the `-1` sentinel), after any
command sequence with `N` settled successes, `trialsRemaining = V - N` with
`N ≤ V`, so it equals `max (V - N) 0` and never goes negative; and once it
reaches 0, authorization rejects before any settlement: the route answers
403 and leaves the store untouched. -/
theorem C2_nonsub_decrement (uid : Int) (up : UserPackage) (V : Int)
    (steps : List (Env × String)) (st0 : St)
    (hact : up.isActive = true) (hsub : up.isSubscription = false)
    (hV : up.trialsRemaining = V) (hV0 : 0 ≤ V)
    (h0 : st0.userPackage = some up) :
    (∃ (st' : St) (N : Nat), runCommands uid steps (st0, 0) = (st', N) ∧
      (N : Int) ≤ V ∧
      st'.userPackage = some { up with trialsRemaining := V - (N : Int) } ∧
      V - (N : Int) = max (V - (N : Int)) 0) ∧
    (∀ (env : Env) (cmd : String) (st : St) (p : UserPackage),
      st.userPackage = some p → p.isActive = true → p.isSubscription = false →
      p.trialsRemaining = 0 →
      postCommandsExecute env uid cmd st
        = (⟨403, some msgUsedAllTrials, none⟩, st)) := by
  constructor
  · have h0' : st0.userPackage
        = some { up with trialsRemaining := V - ((0 : Nat) : Int) } := by
      rw [h0]
      congr 1
      obtain ⟨i, pid, pn, pa, tr, ia, sub, rd, lim, uc⟩ := up
      simp only at hV
      subst hV
      norm_num
    obtain ⟨st', N, hrun, _, hNV, hpkg⟩ :=
      runCommands_nonsub uid up V hact hsub steps st0 0 h0' (by push_cast; omega)
    exact ⟨st', N, hrun, hNV, hpkg, (max_eq_left (by omega)).symm⟩
  · intro env cmd st p hst hpa hps hp0
    have hgp := getUserPackage_some hst hpa
    have hrej := routeGuard_nonsub_reject hps (by rw [hp0]; decide)
      (by rw [hp0])
    exact post_guardReject env uid cmd hgp hrej

/-- C2 witness: the three-trial package driven by four commands. -/
theorem C2_nonsub_decrement_witness :
    ∃ (st' : St) (N : Nat), runCommands 1 steps4Fx (stBasicFx, 0) = (st', N) ∧
      (N : Int) ≤ 3 ∧
      st'.userPackage = some { upBasicFx with trialsRemaining := 3 - (N : Int) } ∧
      3 - (N : Int) = max (3 - (N : Int)) 0 :=
  (C2_nonsub_decrement 1 upBasicFx 3 steps4Fx stBasicFx rfl rfl rfl
    (by norm_num) rfl).1

/-- C3: for an active subscription package whose cycle fields are set with
`trialsUsedInCycle ≤ trialLimitPerCycle`, the counter never exceeds the
limit after any sequence of command executions; authorization rejects with
the cycle-limit message whenever the counter has reached the limit; and a
single authorized execution increments the counter by exactly one when and
only when it settles a success. -/
theorem C3_cycle_invariant (uid : Int) (base : UserPackage) (l u0 : Int)
    (steps : List (Env × String)) (st0 : St)
    (hact : base.isActive = true) (hsub : base.isSubscription = true)
    (hl : base.trialLimitPerCycle = some l)
    (hu0 : base.trialsUsedInCycle = some u0)
    (h0u : u0 ≤ l) (h0 : st0.userPackage = some base) :
    (∃ (st' : St) (N : Nat) (u' tr' : Int),
      runCommands uid steps (st0, 0) = (st', N) ∧
      st'.userPackage = some { base with trialsUsedInCycle := some u',
                                         trialsRemaining := tr' } ∧
      u' ≤ l) ∧
    (∀ (env : Env) (cmd : String) (st : St) (p : UserPackage) (u : Int),
      st.userPackage = some p → p.isActive = true → p.isSubscription = true →
      p.trialsUsedInCycle = some u → p.trialLimitPerCycle = some l → l ≤ u →
      postCommandsExecute env uid cmd st
        = (⟨403, some (msgCycleLimit l), none⟩, st)) ∧
    (∀ (env : Env) (cmd : String) (st : St) (p : UserPackage) (u : Int),
      st.userPackage = some p → p.isActive = true → p.isSubscription = true →
      p.trialsUsedInCycle = some u → p.trialLimitPerCycle = some l → u < l →
      ((postCommandsExecute env uid cmd st).2).userPackage.map
          (fun q => q.trialsUsedInCycle)
        = some (some (u + (if respSuccess (postCommandsExecute env uid cmd st).1
                           then 1 else 0)))) := by
  refine ⟨?_, ?_, ?_⟩
  · have h0' : st0.userPackage
        = some { base with trialsUsedInCycle := some u0,
                           trialsRemaining := base.trialsRemaining } := by
      rw [h0]
      congr 1
      obtain ⟨i, pid, pn, pa, tr, ia, sub, rd, lim, uc⟩ := base
      simp only at hu0
      subst hu0
      rfl
    exact runCommands_sub uid base l hact hsub hl steps st0 0 u0
      base.trialsRemaining h0' h0u
  · intro env cmd st p u hst hpa hps hpu hpl hge
    exact post_guardReject env uid cmd (getUserPackage_some hst hpa)
      (routeGuard_sub_reject hps hpu hpl hge)
  · intro env cmd st p u hst hpa hps hpu hpl hul
    have hgp := getUserPackage_some hst hpa
    have hpass := routeGuard_sub_pass hps hpu hpl hul
    rw [post_dispatches env uid cmd hgp hpass]
    have hpkg := postDispatch_package_sub env uid cmd hst hpa hps hpu
    by_cases hsucc : respSuccess (postDispatch env uid cmd p st).1
    · rw [if_pos hsucc] at hpkg
      rw [hpkg]
      simp [hsucc]
    · rw [if_neg hsucc] at hpkg
      rw [hpkg]
      simp only [Bool.not_eq_true] at hsucc
      simp [hsucc, hpu]

/-- C3 witness: one authorized command against a cycle with one slot left. -/
theorem C3_cycle_invariant_witness :
    ∃ (st' : St) (N : Nat) (u' tr' : Int),
      runCommands 1 [(envFx, "generateTrial netflix")]
        (⟨some { upSubFx with trialsUsedInCycle := some 14 }, [], []⟩, 0)
        = (st', N) ∧
      st'.userPackage
        = some { { upSubFx with trialsUsedInCycle := some 14 } with
                   trialsUsedInCycle := some u', trialsRemaining := tr' } ∧
      u' ≤ 15 :=
  (C3_cycle_invariant 1 { upSubFx with trialsUsedInCycle := some 14 } 15 14
    [(envFx, "generateTrial netflix")]
    ⟨some { upSubFx with trialsUsedInCycle := some 14 }, [], []⟩
    rfl rfl rfl rfl (by norm_num) rfl).1

/-- C4 counterexample: a subscription at its cycle limit whose renewal date
(2024-02-01) has passed the clock (2024-03-10) is still rejected by the
command route with the cycle-limit message, and the store is left untouched:
no rollover (no usage reset, no renewal-date advance) happens before the
entitlement check of the command path. -/
theorem C4_counterexample :
    dateLe ⟨2024, 1, 1⟩ envFx.nowDate = true ∧
    upSubFx.renewalDate = some ⟨2024, 1, 1⟩ ∧
    upSubFx.trialsUsedInCycle = some 15 ∧
    postCommandsExecute envFx 1 "generateTrial netflix" stSubFx
      = (⟨403, some (msgCycleLimit 15), none⟩, stSubFx) :=
  ⟨by decide, rfl, rfl, rfl⟩

/-- C4 (amended): cycle rollover is performed only by the
`GET /api/user/package` read handler; the command-execution route never
rolls the record over — it leaves the renewal date unchanged and only ever
increments the cycle counter — and evaluates its cycle-limit check against
the stored record as-is. -/
theorem C4_amended_rollover_location :
    (∀ (env : Env) (uid : Int) (cmd : String) (st : St) (up : UserPackage),
      st.userPackage = some up → up.isActive = true →
      ∃ q, ((postCommandsExecute env uid cmd st).2).userPackage = some q ∧
        q.renewalDate = up.renewalDate ∧
        (q.trialsUsedInCycle = up.trialsUsedInCycle ∨
         q.trialsUsedInCycle = some (up.trialsUsedInCycle.getD 0 + 1))) ∧
    (∀ (env : Env) (st : St) (p : UserPackage) (rd : JsDate),
      st.userPackage = some p → p.isActive = true → p.isSubscription = true →
      p.renewalDate = some rd → env.subActive = true →
      dateLe rd env.nowDate = true →
      ((getUserPackageRoute env st).2).userPackage
        = some { p with trialsUsedInCycle := some 0,
                        renewalDate := some (addOneMonthJS env.nowDate) } ∧
      (getUserPackageRoute env st).1.httpStatus = 200) := by
  constructor
  · intro env uid cmd st up h ha
    cases hr : routeGuardRejects up with
    | some m =>
      rw [post_guardReject env uid cmd (getUserPackage_some h ha) hr]
      exact ⟨up, h, rfl, Or.inl rfl⟩
    | none =>
      rw [post_dispatches env uid cmd (getUserPackage_some h ha) hr]
      exact postDispatch_package_frame env uid cmd h ha
  · intro env st p rd h ha hsub hrd hact hdue
    exact getRoute_rollover env h ha hsub hrd hact hdue

/-- C4 witness: the two amended parts evaluated at the fixture. -/
theorem C4_amended_rollover_location_witness :
    (∃ q, ((postCommandsExecute envFx 1 "generateTrial netflix" stSubFx).2).userPackage
        = some q ∧
      q.renewalDate = upSubFx.renewalDate ∧
      (q.trialsUsedInCycle = upSubFx.trialsUsedInCycle ∨
       q.trialsUsedInCycle = some (upSubFx.trialsUsedInCycle.getD 0 + 1))) ∧
    (((getUserPackageRoute envFx stSubFx).2).userPackage
        = some { upSubFx with
                   trialsUsedInCycle := some 0,
                   renewalDate := some (addOneMonthJS envFx.nowDate) } ∧
     (getUserPackageRoute envFx stSubFx).1.httpStatus = 200) :=
  ⟨C4_amended_rollover_location.1 envFx 1 "generateTrial netflix" stSubFx
      upSubFx rfl rfl,
   C4_amended_rollover_location.2 envFx stSubFx upSubFx ⟨2024, 1, 1⟩
      rfl rfl rfl rfl rfl (by decide)⟩

/-- C5 counterexample: resetting the cycle of a package whose stored renewal
date is 2024-01-15 at clock 2024-03-10 yields renewal date 2024-04-10 (the
clock plus one month), not 2024-02-15 (the previous renewal date plus one
month) as the claim requires. -/
theorem C5_counterexample :
    ((resetTrialsUsedInCycle ⟨2024, 2, 10⟩
        ⟨some { upSubFx with renewalDate := some ⟨2024, 0, 15⟩ }, [], []⟩).userPackage.map
      (fun p => p.renewalDate))
      = some (some ⟨2024, 3, 10⟩) ∧
    addOneMonthJS ⟨2024, 0, 15⟩ = ⟨2024, 1, 15⟩ ∧
    (some (⟨2024, 3, 10⟩ : JsDate) ≠ some (⟨2024, 1, 15⟩ : JsDate)) :=
  ⟨rfl, by decide, by decide⟩

/-- C5 (amended): `resetTrialsUsedInCycle` resets `trialsUsedInCycle` to 0
and sets `renewalDate` to the CURRENT time advanced by one calendar month
(JS `setMonth` semantics, day overflow rolling into the following month),
independently of the previously stored renewal date; every other field of
the row, the ledger and the notes are unchanged. -/
theorem C5_amended_reset (st : St) (p : UserPackage) (now : JsDate)
    (h : st.userPackage = some p) :
    (resetTrialsUsedInCycle now st).userPackage
      = some { p with trialsUsedInCycle := some 0,
                      renewalDate := some (addOneMonthJS now) } ∧
    (resetTrialsUsedInCycle now st).ledger = st.ledger ∧
    (resetTrialsUsedInCycle now st).notes = st.notes := by
  refine ⟨?_, rfl, rfl⟩
  simp [resetTrialsUsedInCycle, h]

/-- C5 witness: the amended reset evaluated at the fixture. -/
theorem C5_amended_reset_witness :
    (resetTrialsUsedInCycle ⟨2024, 2, 10⟩ stSubFx).userPackage
      = some { upSubFx with
                 trialsUsedInCycle := some 0,
                 renewalDate := some (addOneMonthJS ⟨2024, 2, 10⟩) } ∧
    (resetTrialsUsedInCycle ⟨2024, 2, 10⟩ stSubFx).ledger = stSubFx.ledger ∧
    (resetTrialsUsedInCycle ⟨2024, 2, 10⟩ stSubFx).notes = stSubFx.notes :=
  C5_amended_reset stSubFx upSubFx ⟨2024, 2, 10⟩ rfl

/-- C6: the pipeline executes profile, email, phone, card, signup strictly
in that order; when the first failing stage is stage `k`, exactly the stages
up to `k` have executed, the overall result is that stage's failure result,
and its data field is `none` — no payload from the earlier stages leaks. -/
theorem C6_pipeline_short_circuit (p : PipelineEnv) (svc : String) :
    (∀ m, p.profileO = .error m →
      generateTrial p svc
        = (⟨false, .profile, none, "Failed to generate profile: " ++ m⟩,
           [.profile])) ∧
    (∀ pr m, p.profileO = .ok pr → p.emailO = .error m →
      generateTrial p svc
        = (⟨false, .email, none, "Failed to generate email: " ++ m⟩,
           [.profile, .email])) ∧
    (∀ pr em m, p.profileO = .ok pr → p.emailO = .ok em →
      p.phoneO = .error m →
      generateTrial p svc
        = (⟨false, .phoneNumber, none,
            "Failed to generate phone number: " ++ m⟩,
           [.profile, .email, .phone])) ∧
    (∀ pr em ph m, p.profileO = .ok pr → p.emailO = .ok em →
      p.phoneO = .ok ph → p.cardO = .error m →
      generateTrial p svc
        = (⟨false, .virtualCard, none,
            "Failed to generate virtual card: " ++ m⟩,
           [.profile, .email, .phone, .card])) ∧
    (∀ pr em ph cd m, p.profileO = .ok pr → p.emailO = .ok em →
      p.phoneO = .ok ph → p.cardO = .ok cd → p.signupO = .error m →
      generateTrial p svc
        = (⟨false, .subscription, none, "Failed to sign up for trial: " ++ m⟩,
           [.profile, .email, .phone, .card, .signup])) := by
  refine ⟨?_, ?_, ?_, ?_, ?_⟩
  · intro m h1
    unfold generateTrial
    rw [h1]
  · intro pr m h1 h2
    unfold generateTrial
    rw [h1, h2]
  · intro pr em m h1 h2 h3
    unfold generateTrial
    rw [h1, h2, h3]
  · intro pr em ph m h1 h2 h3 h4
    unfold generateTrial
    rw [h1, h2, h3, h4]
  · intro pr em ph cd m h1 h2 h3 h4 h5
    unfold generateTrial
    rw [h1, h2, h3, h4, h5]

/-- C6 witness: a failing phone stage halts the pipeline after three stages
with a null payload. -/
theorem C6_pipeline_short_circuit_witness :
    generateTrial { pipeOkFx with phoneO := .error "boom" } "netflix"
      = (⟨false, .phoneNumber, none, "Failed to generate phone number: boom"⟩,
         [.profile, .email, .phone]) :=
  (C6_pipeline_short_circuit { pipeOkFx with phoneO := .error "boom" }
    "netflix").2.2.1 profFx emailFx "boom" rfl rfl rfl

/-- C7: on a fully successful pipeline run the aggregate carries only the
masked card projection — type tag, last four digits, and expiry — and the
aggregate is invariant under replacing the generated card by any card with
the same last four digits and expiry: the full card number (and cvv, limit)
cannot appear anywhere in the aggregate result. -/
theorem C7_card_masking (p : PipelineEnv) (svc : String)
    (prof : ProfileData) (em : EmailData) (ph : PhoneData) (cd : CardData)
    (h1 : p.profileO = .ok prof) (h2 : p.emailO = .ok em)
    (h3 : p.phoneO = .ok ph) (h4 : p.cardO = .ok cd)
    (h5 : p.signupO = .ok ()) :
    ((generateTrial p svc).1).success = true ∧
    (∃ agg : AggregateData,
      ((generateTrial p svc).1).data = some (.aggregateD agg) ∧
      agg.paymentMethod
        = ⟨"Virtual Card", cd.cardNumber.takeRight 4, cd.expiryMonth,
           cd.expiryYear⟩) ∧
    (∀ cd' : CardData,
      cd'.cardNumber.takeRight 4 = cd.cardNumber.takeRight 4 →
      cd'.expiryMonth = cd.expiryMonth → cd'.expiryYear = cd.expiryYear →
      generateTrial { p with cardO := .ok cd' } svc = generateTrial p svc) := by
  refine ⟨?_, ?_, ?_⟩
  · unfold generateTrial
    rw [h1, h2, h3, h4, h5]
  · unfold generateTrial
    rw [h1, h2, h3, h4, h5]
    exact ⟨_, rfl, rfl⟩
  · intro cd' e1 e2 e3
    unfold generateTrial
    rw [h1, h2, h3, h4, h5]
    simp only [e1, e2, e3]

/-- C7 witness: swapping in a different card with the same last four digits
and expiry leaves the aggregate unchanged. -/
theorem C7_card_masking_witness :
    generateTrial { pipeOkFx with cardO := .ok cardFx2 } "netflix"
      = generateTrial pipeOkFx "netflix" :=
  (C7_card_masking pipeOkFx "netflix" profFx emailFx phoneFx cardFx
    rfl rfl rfl rfl rfl).2.2 cardFx2 (by decide) rfl rfl

/-- C8: when an entitled user (active package passing the route guard)
submits a command that does not match the canonical form, the route produces
a `CommandExecution` with status `error` whose message is a fixed guidance
string ending in the valid format `!generateTrial [serviceName]`, appends
exactly that record to the ledger, and leaves the package row — hence both
entitlement counters — unchanged. -/
theorem C8_malformed_ledgered (env : Env) (uid : Int) (cmd : String)
    {st : St} {up : UserPackage}
    (h : st.userPackage = some up) (ha : up.isActive = true)
    (hg : routeGuardRejects up = none)
    (hp : parseTrialCommand cmd = none) :
    ∃ e : CommandExecution,
      (postCommandsExecute env uid cmd st).1.out = some ⟨e, none⟩ ∧
      e.status = "error" ∧
      (∃ pre, e.message = pre ++ fmtStr) ∧
      ((postCommandsExecute env uid cmd st).2).ledger = st.ledger ++ [e] ∧
      ((postCommandsExecute env uid cmd st).2).userPackage = st.userPackage := by
  rw [post_dispatches env uid cmd (getUserPackage_some h ha) hg]
  have hex := executeTrialCommand_parseFail env uid cmd st hp
  unfold postDispatch
  by_cases hs : startsWithTrialCmd cmd
  · refine ⟨⟨uid, cmd, "unknown", "error", msgInvalidFormat, env.nowIsoStr⟩,
      ?_, rfl, ⟨"Invalid command format. Use: ", rfl⟩, ?_, ?_⟩
    · simp [hs, hex]
    · have hl := executeTrialCommand_ledger env uid cmd st
      rw [hex] at hl
      simp [hs, hex, hl]
    · have hpk := executeTrialCommand_package env uid cmd h ha
      rw [hex] at hpk
      rw [if_neg (by simp)] at hpk
      simp [hs, hex, hpk, h]
  · refine ⟨⟨uid, cmd, "unknown", "error", msgUnknownCommand, env.nowIsoStr⟩,
      ?_, rfl, ⟨"Unknown command. Available commands: ", rfl⟩, ?_, ?_⟩
      <;> simp [hs]

/-- C8 witness: the malformed command of the end-to-end example. -/
theorem C8_malformed_ledgered_witness :
    ∃ e : CommandExecution,
      (postCommandsExecute envFx 1 "doStuff" stBasicFx).1.out = some ⟨e, none⟩ ∧
      e.status = "error" ∧
      (∃ pre, e.message = pre ++ fmtStr) ∧
      ((postCommandsExecute envFx 1 "doStuff" stBasicFx).2).ledger
        = stBasicFx.ledger ++ [e] ∧
      ((postCommandsExecute envFx 1 "doStuff" stBasicFx).2).userPackage
        = stBasicFx.userPackage :=
  C8_malformed_ledgered envFx 1 "doStuff" rfl rfl (by decide) (by decide)

/-- C9: a canonical command whose trailing parameter block is malformed
(brace-wrapped text that `JSON.parse` rejects, or `key=value` tokens none of
which carries both a key and a value) still parses, with the parameter map
degrading to empty, and the command proceeds to trial generation: the
recorded execution names the parsed service and its status is decided by the
pipeline alone, never by the parameter block. -/
theorem C9_lenient_params (env : Env) (uid : Int) (svc pstr : String)
    {st : St} {up : UserPackage}
    (hsvc1 : svc ≠ "") (hsvc2 : ∀ c ∈ svc.data, isAlnumCh c = true)
    (hp1 : pstr ≠ "")
    (hp2 : ∀ c, pstr.data.head? = some c → isSpaceCh c = false)
    (hp3 : ∀ c ∈ pstr.data, isLineTermCh c = false)
    (hmal : malformedParamBlock env.jsonParse pstr)
    (h : st.userPackage = some up) (ha : up.isActive = true)
    (h0 : up.trialsRemaining ≠ 0) :
    parseTrialCommand ("generateTrial" ++ " " ++ svc ++ " " ++ pstr)
      = some (svc, some pstr) ∧
    parseParameters env.jsonParse (some pstr) = [] ∧
    ((executeTrialCommand env uid
        ("generateTrial" ++ " " ++ svc ++ " " ++ pstr) st).1).exec
      = ⟨uid, "generateTrial" ++ " " ++ svc ++ " " ++ pstr, svc,
         if pipelineOk env.pipeline then "success" else "error",
         ((generateTrial env.pipeline svc).1).message, env.nowIsoStr⟩ := by
  have hparse := parseTrialCommand_canonical svc pstr hsvc1 hsvc2 hp1 hp2 hp3
  exact ⟨hparse, parseParameters_malformed _ _ hmal,
    executeTrialCommand_exec_parsed env uid _ svc (some pstr) h ha h0 hparse⟩

/-- C9 witness: a brace-wrapped non-JSON parameter block on an entitled
package still yields a successful generation. -/
theorem C9_lenient_params_witness :
    parseTrialCommand ("generateTrial" ++ " " ++ "netflix" ++ " "
        ++ "\x7bnot json\x7d")
      = some ("netflix", some "\x7bnot json\x7d") ∧
    parseParameters envFx.jsonParse (some "\x7bnot json\x7d") = [] ∧
    ((executeTrialCommand envFx 1
        ("generateTrial" ++ " " ++ "netflix" ++ " " ++ "\x7bnot json\x7d")
        stBasicFx).1).exec
      = ⟨1, "generateTrial" ++ " " ++ "netflix" ++ " " ++ "\x7bnot json\x7d",
         "netflix", if pipelineOk envFx.pipeline then "success" else "error",
         ((generateTrial envFx.pipeline "netflix").1).message,
         envFx.nowIsoStr⟩ :=
  C9_lenient_params envFx 1 "netflix" "\x7bnot json\x7d"
    (by decide) (by decide) (by decide)
    (by
      intro c hc
      rw [show (("\x7bnot json\x7d" : String).data.head?) = some '\x7b' from rfl]
        at hc
      injection hc with hc'
      subst hc'
      decide)
    (by decide)
    (by
      unfold malformedParamBlock
      rw [if_pos (by decide)]
      rfl)
    rfl rfl (by decide)

/-- C10: the in-agent entitlement check of `executeTrialCommand` rejects
for exhausted credits only at exactly zero remaining trials: for EVERY
active non-subscription package whose `trialsRemaining` is negative and not
`-1`, and every parsed command, the agent authorizes the command (the
recorded execution names the parsed service and its status is decided by
the pipeline, not by the no-trials rejection), treats the package as
limited, and on a pipeline success decrements `trialsRemaining` to a value
strictly below `-1`; the HTTP route's guard instead rejects the very same
package with 403 and leaves the store untouched. -/
theorem C10_exec_guard_exact_zero (env : Env) (uid : Int) (cmd svc : String)
    (po : Option String) {st : St} {up : UserPackage}
    (h : st.userPackage = some up) (ha : up.isActive = true)
    (hsub : up.isSubscription = false)
    (hneg : up.trialsRemaining < 0) (hm1 : up.trialsRemaining ≠ -1)
    (hp : parseTrialCommand cmd = some (svc, po)) :
    ((executeTrialCommand env uid cmd st).1).exec
      = ⟨uid, cmd, svc,
         if pipelineOk env.pipeline then "success" else "error",
         ((generateTrial env.pipeline svc).1).message, env.nowIsoStr⟩ ∧
    (pipelineOk env.pipeline = true →
      ((executeTrialCommand env uid cmd st).2).userPackage
        = some { up with trialsRemaining := up.trialsRemaining - 1 } ∧
      up.trialsRemaining - 1 < -1) ∧
    postCommandsExecute env uid cmd st
      = (⟨403, some msgUsedAllTrials, none⟩, st) := by
  have h0 : up.trialsRemaining ≠ 0 := by omega
  have hexec := executeTrialCommand_exec_parsed env uid cmd svc po h ha h0 hp
  refine ⟨hexec, ?_, ?_⟩
  · intro hok
    refine ⟨?_, by omega⟩
    have hpk := executeTrialCommand_package env uid cmd h ha
    have hst : ((executeTrialCommand env uid cmd st).1).exec.status
        = "success" := by
      rw [hexec]
      simp [hok]
    rw [if_pos ⟨hst, hm1⟩] at hpk
    exact hpk
  · exact post_guardReject env uid cmd (getUserPackage_some h ha)
      (routeGuard_nonsub_reject hsub hm1 (by omega))

/-- C10 witness: the divergence evaluated at `trialsRemaining = -2`. -/
theorem C10_exec_guard_exact_zero_witness :
    ((executeTrialCommand envFx 7 "generateTrial netflix" stNegFx).1).exec
      = ⟨7, "generateTrial netflix", "netflix",
         if pipelineOk envFx.pipeline then "success" else "error",
         ((generateTrial envFx.pipeline "netflix").1).message,
         envFx.nowIsoStr⟩ ∧
    (pipelineOk envFx.pipeline = true →
      ((executeTrialCommand envFx 7 "generateTrial netflix" stNegFx).2).userPackage
        = some { upNegFx with trialsRemaining := upNegFx.trialsRemaining - 1 } ∧
      upNegFx.trialsRemaining - 1 < -1) ∧
    postCommandsExecute envFx 7 "generateTrial netflix" stNegFx
      = (⟨403, some msgUsedAllTrials, none⟩, stNegFx) :=
  C10_exec_guard_exact_zero envFx 7 "generateTrial netflix" "netflix" none
    rfl rfl rfl (by decide) (by decide) rfl

end MagicNotebook
